import Mathlib

/-!
Shallow embedding of the cellular-automata engine (`src/lib/automata.ts`)
and of the catalog rules in `src/components/CustomRuleSimulator.tsx`.

Cell states are natural numbers (0 = dead/empty, 1 = alive, larger codes for
multi-state automata).  A 2D grid is a list of rows; reading an out-of-range
index yields 0, which the claims never rely on (they restrict to rectangular
grids and in-range indices).
-/

namespace Automata

abbrev CellState := Nat

abbrev Grid := List (List CellState)

abbrev RuleFunction := List CellState → CellState → CellState

/-- Reads cell `(i, j)` of a grid (JS `grid[i][j]`; out of range defaults to 0). -/
def getCell (g : Grid) (i j : Nat) : CellState :=
  (g.getD i []).getD j 0

/-- Toroidal index arithmetic of the source: `(i + d + n) % n` computed in ℤ. -/
def wrapIdx (i : Nat) (d : Int) (n : Nat) : Nat :=
  (((i : Int) + d + (n : Int)) % (n : Int)).toNat

/-- The inner double loop of `nextGeneration`: the 8 Moore-neighborhood states,
`x` (row offset) outer, `y` (column offset) inner, skipping `(0,0)`. -/
def mooreNeighbors (g : Grid) (rows cols i j : Nat) : List CellState :=
  ([-1, 0, 1] : List Int).flatMap fun x =>
    ([-1, 0, 1] : List Int).filterMap fun y =>
      if x = 0 ∧ y = 0 then none
      else some (getCell g (wrapIdx i x rows) (wrapIdx j y cols))

/-- `nextGeneration(currentGrid, rule)` of `automata.ts`: empty input gives an
empty grid; otherwise every cell of the new grid is the rule applied to the
Moore neighbors and the current cell. -/
def nextGeneration (g : Grid) (rule : RuleFunction) : Grid :=
  match g with
  | [] => []
  | r0 :: _ =>
    if r0.length = 0 then []
    else
      let rows := g.length
      let cols := r0.length
      (List.range rows).map fun i =>
        (List.range cols).map fun j =>
          rule (mooreNeighbors g rows cols i j) (getCell g i j)

/-- `conwayRule` of `automata.ts`: sums the raw neighbor states. -/
def conwayRule : RuleFunction := fun neighbors currentState =>
  let liveNeighbors := neighbors.foldl (fun sum state => sum + state) 0
  if currentState = 1 then
    if liveNeighbors = 2 ∨ liveNeighbors = 3 then 1 else 0
  else
    if liveNeighbors = 3 then 1 else 0

/-- The 8-bit, most-significant-bit-first binary expansion produced by
`ruleNumber.toString(2).padStart(8, '0')` for `ruleNumber ≤ 255`. -/
def toBinary8 (n : Nat) : List Nat :=
  (List.range 8).map fun i => n / 2 ^ (7 - i) % 2

/-- The closure returned by `getElementaryRule`: look up position
`7 - (left*4 + center*2 + right)` in the MSB-first expansion. -/
def elementaryRuleFn (code : Nat) : Nat → Nat → Nat → Nat :=
  fun left center right =>
    (toBinary8 code).getD (7 - (left * 4 + center * 2 + right * 1)) 0

/-- `getElementaryRule(ruleNumber)` of `automata.ts`: throws for codes outside
`[0, 255]`, otherwise returns the table-lookup closure. -/
def getElementaryRule (ruleNumber : Int) :
    Except String (Nat → Nat → Nat → Nat) :=
  if ruleNumber < 0 ∨ ruleNumber > 255 then
    Except.error "Rule number must be between 0 and 255."
  else
    Except.ok (elementaryRuleFn ruleNumber.toNat)

/-- Diamoeba entry of the `CustomRuleSimulator.tsx` catalog (as coded:
survive on 5..8, born on 3..8). -/
def diamoebaRule : RuleFunction := fun neighbors current =>
  let aliveNeighbors := (neighbors.filter fun n => n == 1).length
  if current = 1 then
    if 5 ≤ aliveNeighbors ∧ aliveNeighbors ≤ 8 then 1 else 0
  else
    if 3 ≤ aliveNeighbors ∧ aliveNeighbors ≤ 8 then 1 else 0

/-- Serviettes entry of the `CustomRuleSimulator.tsx` catalog (as coded:
next state is 1 iff exactly 2 alive neighbors, regardless of current state). -/
def serviettesRule : RuleFunction := fun neighbors _current =>
  let aliveNeighbors := (neighbors.filter fun n => n == 1).length
  if aliveNeighbors = 2 then 1 else 0

/-! ### Birth/Survival notation parser (`parseBSRule`) -/

/-- A character of the regex character class `[0-8]`. -/
def isDigit08 (c : Char) : Bool := '0' ≤ c ∧ c ≤ '8'

/-- JS `Number(c)` on a one-character string: a value for decimal digits,
`none` standing for `NaN` otherwise. -/
def charToNum (c : Char) : Option Nat :=
  if '0' ≤ c ∧ c ≤ '9' then some (c.toNat - '0'.toNat) else none

/-- Anchored matching of `/^B([0-8]*)\/S([0-8]*)$/` on an (uppercased)
character list, returning the two capture groups.  Greedy `takeWhile` agrees
with the regex because `'/'` is not in the class `[0-8]`. -/
def bsMatch (cs : List Char) : Option (List Char × List Char) :=
  match cs with
  | [] => none
  | c0 :: rest =>
    if c0 = 'B' then
      match rest.dropWhile isDigit08 with
      | c1 :: c2 :: rest2 =>
        if c1 = '/' ∧ c2 = 'S' then
          if rest2.dropWhile isDigit08 = [] then
            some (rest.takeWhile isDigit08, rest2.takeWhile isDigit08)
          else none
        else none
      | _ => none
    else none

/-- The closure returned by `parseBSRule`: count neighbors whose state is
exactly 1 and test membership in the survival (alive) or birth (dead) set. -/
def bsRuleFn (birthSet survivalSet : List Nat) : RuleFunction :=
  fun neighbors currentState =>
    let liveNeighbors :=
      neighbors.foldl (fun sum state => sum + (if state = 1 then 1 else 0)) 0
    if currentState = 1 then
      if survivalSet.contains liveNeighbors then 1 else 0
    else
      if birthSet.contains liveNeighbors then 1 else 0

/-- The format-error message of `parseBSRule`. -/
def bsFormatErr : String :=
  "Invalid B/S rule format. Expected format: B<birth_digits>/S<survival_digits> (e.g., B3/S23)"

/-- The digit-validation error message of `parseBSRule`. -/
def bsDigitErr : String :=
  "Invalid digits in B/S rule. Use digits 0-8 only."

/-- `parseBSRule(ruleString)` of `automata.ts`: uppercase, match the regex,
map the captured characters through `Number`, throw if any is `NaN`, and
otherwise return the membership closure. -/
def parseBSRule (ruleString : String) : Except String RuleFunction :=
  match bsMatch (ruleString.data.map Char.toUpper) with
  | none => Except.error bsFormatErr
  | some (b, s) =>
    let birthConditions := b.map charToNum
    let survivalConditions := s.map charToNum
    if birthConditions.any Option.isNone || survivalConditions.any Option.isNone then
      Except.error bsDigitErr
    else
      Except.ok (bsRuleFn birthConditions.reduceOption survivalConditions.reduceOption)

/-- The rule function that `parseBSRule("B3/S23")` returns. -/
def conwayViaBS : RuleFunction :=
  match parseBSRule "B3/S23" with
  | Except.ok f => f
  | Except.error _ => fun _ _ => 0

/-- The claim's grammar, written from the spec's words: the uppercased string
is `B<digits>/S<digits>` with every digit drawn from `0`–`8`. -/
def MatchesBS (s : String) : Prop :=
  ∃ b d, (∀ c ∈ b, isDigit08 c = true) ∧ (∀ c ∈ d, isDigit08 c = true) ∧
    s.data.map Char.toUpper = 'B' :: (b ++ '/' :: 'S' :: d)

/-! ### Grid well-formedness and crystal growth -/

/-- A well-formed grid: `rows` rows, each of width `cols`. -/
def Rectangular (g : Grid) (rows cols : Nat) : Prop :=
  g.length = rows ∧ ∀ row ∈ g, row.length = cols

/-- Written from the claim's words: the neighbor state read at
`((i+dx+rows)%rows, (j+dy+cols)%cols)`. -/
def specNeighbor (g : Grid) (rows cols i j : Nat) (dx dy : Int) : CellState :=
  getCell g (((i : Int) + dx + rows) % rows).toNat (((j : Int) + dy + cols) % cols).toNat

/-- Written from the claim's words: the 8 Moore reads enumerated row-major
over `dx` then `dy`, skipping the center. -/
def specMooreList (g : Grid) (rows cols i j : Nat) : List CellState :=
  [specNeighbor g rows cols i j (-1) (-1), specNeighbor g rows cols i j (-1) 0,
   specNeighbor g rows cols i j (-1) 1, specNeighbor g rows cols i j 0 (-1),
   specNeighbor g rows cols i j 0 1, specNeighbor g rows cols i j 1 (-1),
   specNeighbor g rows cols i j 1 0, specNeighbor g rows cols i j 1 1]

/-- `simpleCrystalRule` of `automata.ts`: an empty cell crystallizes when at
least `threshold` neighbors are crystal; any other state is returned
unchanged.  The source defaults `threshold` to 3. -/
def simpleCrystalRule (neighbors : List CellState) (currentState : CellState)
    (threshold : Nat) : CellState :=
  if currentState = 0 then
    if threshold ≤ neighbors.foldl (fun sum state => sum + (if state = 1 then 1 else 0)) 0
    then 1
    else currentState
  else currentState

/-- One generation of the crystal simulation: `nextGeneration` with
`simpleCrystalRule` at its default threshold 3. -/
def crystalStep (g : Grid) : Grid :=
  nextGeneration g fun neighbors currentState => simpleCrystalRule neighbors currentState 3

/-! ### B/S matcher lemmas -/

/-- Dropping a satisfying prefix stops exactly at the first failing character. -/
theorem dropWhile_all_append (p : Char → Bool) (l : List Char) (x : Char)
    (t : List Char) (hl : ∀ c ∈ l, p c = true) (hx : p x = false) :
    (l ++ x :: t).dropWhile p = x :: t ∧ (l ++ x :: t).takeWhile p = l := by
  induction l with
  | nil => simp [List.dropWhile, List.takeWhile, hx]
  | cons a l ih =>
    have ha : p a = true := hl a (List.mem_cons_self a l)
    have ih' := ih fun c hc => hl c (List.mem_cons_of_mem a hc)
    simp [List.dropWhile_cons, List.takeWhile_cons, ha, ih'.1, ih'.2]

theorem bsMatch_some_decomp {cs b d : List Char} (h : bsMatch cs = some (b, d)) :
    (∀ c ∈ b, isDigit08 c = true) ∧ (∀ c ∈ d, isDigit08 c = true) ∧
      cs = 'B' :: (b ++ '/' :: 'S' :: d) := by
  match cs with
  | [] => exact absurd h (by simp [bsMatch])
  | c0 :: rest =>
    rw [show bsMatch (c0 :: rest) =
        (if c0 = 'B' then
          match rest.dropWhile isDigit08 with
          | c1 :: c2 :: rest2 =>
            if c1 = '/' ∧ c2 = 'S' then
              if rest2.dropWhile isDigit08 = [] then
                some (rest.takeWhile isDigit08, rest2.takeWhile isDigit08)
              else none
            else none
          | _ => none
        else none) from rfl] at h
    by_cases h0 : c0 = 'B'
    case neg => rw [if_neg h0] at h; exact absurd h (by simp)
    rw [if_pos h0] at h
    subst h0
    revert h
    cases hdw : rest.dropWhile isDigit08 with
    | nil => intro h; exact absurd h (by simp)
    | cons c1 t1 =>
      cases t1 with
      | nil => intro h; exact absurd h (by simp)
      | cons c2 rest2 =>
        intro h
        rw [show (match c1 :: c2 :: rest2 with
            | c1 :: c2 :: rest2 =>
              if c1 = '/' ∧ c2 = 'S' then
                if rest2.dropWhile isDigit08 = [] then
                  some (rest.takeWhile isDigit08, rest2.takeWhile isDigit08)
                else none
              else none
            | _ => none) =
          (if c1 = '/' ∧ c2 = 'S' then
            if rest2.dropWhile isDigit08 = [] then
              some (rest.takeWhile isDigit08, rest2.takeWhile isDigit08)
            else none
          else none) from rfl] at h
        by_cases h12 : c1 = '/' ∧ c2 = 'S'
        case neg => rw [if_neg h12] at h; exact absurd h (by simp)
        rw [if_pos h12] at h
        obtain ⟨rfl, rfl⟩ := h12
        by_cases h2 : rest2.dropWhile isDigit08 = []
        case neg => rw [if_neg h2] at h; exact absurd h (by simp)
        rw [if_pos h2] at h
        obtain ⟨hb, hd⟩ : rest.takeWhile isDigit08 = b ∧ rest2.takeWhile isDigit08 = d := by
          simpa using h
        have hall2 : ∀ c ∈ rest2, isDigit08 c = true := List.dropWhile_eq_nil_iff.mp h2
        have hdr : d = rest2 := by
          rw [← hd, List.takeWhile_eq_self_iff.mpr hall2]
        refine ⟨?_, ?_, ?_⟩
        · intro c hc
          exact List.mem_takeWhile_imp (hb ▸ hc)
        · intro c hc
          exact hall2 c (hdr ▸ hc)
        · have hsplit : rest.takeWhile isDigit08 ++ rest.dropWhile isDigit08 = rest :=
            List.takeWhile_append_dropWhile isDigit08 rest
          rw [← hsplit, hb, hdw, hdr]

theorem bsMatch_of_decomp (b d : List Char) (hb : ∀ c ∈ b, isDigit08 c = true)
    (hd : ∀ c ∈ d, isDigit08 c = true) :
    bsMatch ('B' :: (b ++ '/' :: 'S' :: d)) = some (b, d) := by
  have hsplit := dropWhile_all_append isDigit08 b '/' ('S' :: d) hb (by decide)
  rw [show bsMatch ('B' :: (b ++ '/' :: 'S' :: d)) =
      (match (b ++ '/' :: 'S' :: d).dropWhile isDigit08 with
        | c1 :: c2 :: rest2 =>
          if c1 = '/' ∧ c2 = 'S' then
            if rest2.dropWhile isDigit08 = [] then
              some ((b ++ '/' :: 'S' :: d).takeWhile isDigit08, rest2.takeWhile isDigit08)
            else none
          else none
        | _ => none) from rfl]
  rw [hsplit.1]
  rw [show (match '/' :: 'S' :: d with
      | c1 :: c2 :: rest2 =>
        if c1 = '/' ∧ c2 = 'S' then
          if rest2.dropWhile isDigit08 = [] then
            some ((b ++ '/' :: 'S' :: d).takeWhile isDigit08, rest2.takeWhile isDigit08)
          else none
        else none
      | _ => none) =
    (if ('/' : Char) = '/' ∧ ('S' : Char) = 'S' then
      if d.dropWhile isDigit08 = [] then
        some ((b ++ '/' :: 'S' :: d).takeWhile isDigit08, d.takeWhile isDigit08)
      else none
    else none) from rfl]
  rw [if_pos ⟨rfl, rfl⟩, if_pos (List.dropWhile_eq_nil_iff.mpr hd), hsplit.2,
    List.takeWhile_eq_self_iff.mpr hd]

/-! ### Elementary-rule lemmas -/

set_option maxRecDepth 10000 in
set_option maxHeartbeats 1000000 in
/-- For every 8-bit code, the MSB-first table lookup at position
`7 - (l*4 + c*2 + r)` is the bit of weight `2 ^ (l*4 + c*2 + r)` of the code. -/
theorem elementaryRuleFn_bit :
    ∀ n < 256, ∀ l ≤ 1, ∀ c ≤ 1, ∀ r ≤ 1,
      elementaryRuleFn n l c r = n / 2 ^ (l * 4 + c * 2 + r) % 2 := by
  decide

/-- C2: for every code in [0,255] and binary `left`, `center`, `right`,
`getElementaryRule code` succeeds and its rule returns the bit of weight
`2 ^ (left*4 + center*2 + right)` of `code` — that is, the bit at position
`7 - (left*4 + center*2 + right)` of the 8-bit MSB-first expansion (standard
Wolfram numbering); in particular code 30 realizes the Rule-30 truth table. -/
theorem getElementaryRule_wolfram :
    (∀ code : Int, 0 ≤ code → code ≤ 255 → ∀ l c r : Nat, l ≤ 1 → c ≤ 1 → r ≤ 1 →
      getElementaryRule code = Except.ok (elementaryRuleFn code.toNat) ∧
      elementaryRuleFn code.toNat l c r = code.toNat / 2 ^ (l * 4 + c * 2 + r) % 2) ∧
    (getElementaryRule 30 = Except.ok (elementaryRuleFn 30) ∧
      elementaryRuleFn 30 1 1 1 = 0 ∧ elementaryRuleFn 30 1 1 0 = 0 ∧
      elementaryRuleFn 30 1 0 1 = 0 ∧ elementaryRuleFn 30 1 0 0 = 1 ∧
      elementaryRuleFn 30 0 1 1 = 1 ∧ elementaryRuleFn 30 0 1 0 = 1 ∧
      elementaryRuleFn 30 0 0 1 = 1 ∧ elementaryRuleFn 30 0 0 0 = 0) := by
  constructor
  · intro code h0 h1 l c r hl hc hr
    refine ⟨?_, elementaryRuleFn_bit code.toNat (by omega) l hl c hc r hr⟩
    unfold getElementaryRule
    rw [if_neg (by omega)]
  · exact ⟨rfl, rfl, rfl, rfl, rfl, rfl, rfl, rfl, rfl⟩

/-- Witness for C2 at `code = 30`, `(left, center, right) = (1, 1, 1)`. -/
theorem getElementaryRule_wolfram_witness :
    getElementaryRule 30 = Except.ok (elementaryRuleFn 30) ∧
    elementaryRuleFn 30 1 1 1 = 30 / 2 ^ 7 % 2 :=
  getElementaryRule_wolfram.1 30 (by decide) (by decide) 1 1 1
    (by decide) (by decide) (by decide)

/-- C6: `getElementaryRule` fails exactly on codes outside `[0, 255]` and
returns a rule function on every code inside. -/
theorem getElementaryRule_range_error (code : Int) :
    ((∃ e, getElementaryRule code = Except.error e) ↔ code < 0 ∨ code > 255) ∧
    ((∃ f, getElementaryRule code = Except.ok f) ↔ 0 ≤ code ∧ code ≤ 255) := by
  unfold getElementaryRule
  by_cases h : code < 0 ∨ code > 255
  · rw [if_pos h]
    refine ⟨⟨fun _ => h, fun _ => ⟨_, rfl⟩⟩, ⟨?_, fun hin => by omega⟩⟩
    rintro ⟨f, hf⟩
    cases hf
  · rw [if_neg h]
    refine ⟨⟨?_, fun hout => by omega⟩, ⟨fun _ => by omega, fun _ => ⟨_, rfl⟩⟩⟩
    rintro ⟨e, he⟩
    cases he

/-! ### Catalog-rule evaluations -/

/-- C4: evaluation of the coded Diamoeba rule at the failing input: a dead
cell with exactly 4 live neighbors is born, although the rule's own
description (and the canonical Diamoeba birth set {3,5,6,7,8}) excludes 4. -/
theorem diamoebaRule_births_on_four :
    diamoebaRule [1, 1, 1, 1, 0, 0, 0, 0] 0 = 1 := by decide

/-- C5: evaluation of the coded Serviettes rule at the failing input: a live
cell with exactly 2 live neighbors stays alive, although the rule's own
description says live cells always die (empty survival set). -/
theorem serviettesRule_survives_on_two :
    serviettesRule [1, 1, 0, 0, 0, 0, 0, 0] 1 = 1 := by decide

/-! ### B/S parser theorems (C3, C7, C8) -/

/-- On lists whose entries are all 0 or 1, summing the raw states agrees with
counting the entries equal to 1. -/
theorem foldl_sum_eq_count (l : List Nat) (h : ∀ n ∈ l, n = 0 ∨ n = 1) (a : Nat) :
    l.foldl (fun sum state => sum + state) a =
      l.foldl (fun sum state => sum + (if state = 1 then 1 else 0)) a := by
  induction l generalizing a with
  | nil => rfl
  | cons x xs ih =>
    have hx := h x (List.mem_cons_self x xs)
    have ih' := ih (fun n hn => h n (List.mem_cons_of_mem x hn))
    rcases hx with h0 | h1 <;> subst_vars <;> simp [List.foldl_cons, ih']
/-- C3 counterexample: `parseBSRule("B3/S23")` and `conwayRule` disagree on the
neighbor list `[2]` with a live current cell: the parsed rule counts zero
neighbors of state exactly 1 (next state 0), while `conwayRule` sums the raw
states to 2 (next state 1). -/
theorem bs_conway_counterexample :
    parseBSRule "B3/S23" = Except.ok conwayViaBS ∧
    conwayViaBS [2] 1 = 0 ∧ conwayRule [2] 1 = 1 :=
  ⟨rfl, by decide, by decide⟩
/-- C3 amended: on neighbor lists whose entries are all 0 or 1,
`parseBSRule("B3/S23")` produces the same next state as the built-in
`conwayRule` for every current state. -/
theorem bs_conway_equiv (neighbors : List Nat)
    (h : ∀ n ∈ neighbors, n = 0 ∨ n = 1) (currentState : Nat) :
    parseBSRule "B3/S23" = Except.ok conwayViaBS ∧
    conwayViaBS neighbors currentState = conwayRule neighbors currentState := by
  refine ⟨rfl, ?_⟩
  show bsRuleFn [3] [2, 3] neighbors currentState = conwayRule neighbors currentState
  unfold bsRuleFn conwayRule
  rw [← foldl_sum_eq_count neighbors h 0]
  set L := neighbors.foldl (fun sum state => sum + state) 0 with hL
  by_cases hcur : currentState = 1
  · simp only [if_pos hcur]
    by_cases h23 : L = 2 ∨ L = 3
    · rw [if_pos h23, if_pos (by simp [List.elem_iff, h23])]
    · rw [if_neg h23, if_neg (by simp [List.elem_iff]; omega)]
  · simp only [if_neg hcur]
    by_cases h3 : L = 3
    · rw [if_pos h3, if_pos (by simp [List.elem_iff, h3])]
    · rw [if_neg h3, if_neg (by simp [List.elem_iff]; omega)]
/-- Witness for the amended C3 at `neighbors = [1,1,1]`, `currentState = 0`. -/
theorem bs_conway_equiv_witness :
    parseBSRule "B3/S23" = Except.ok conwayViaBS ∧
    conwayViaBS [1, 1, 1] 0 = conwayRule [1, 1, 1] 0 :=
  bs_conway_equiv [1, 1, 1] (by decide) 0
/-- C7: `parseBSRule` raises the format error on every string that does not
match, case-insensitively, the grammar `B<digits>/S<digits>` with digits
0-8, and in particular rejects `"X3/S23"`, `"B9/S23"` and `"B3S23"`. -/
theorem parseBSRule_rejects_nonmatching :
    (∀ s : String, ¬ MatchesBS s → parseBSRule s = Except.error bsFormatErr) ∧
    (parseBSRule "X3/S23").isOk = false ∧
    (parseBSRule "B9/S23").isOk = false ∧
    (parseBSRule "B3S23").isOk = false := by
  refine ⟨?_, by decide, by decide, by decide⟩
  intro s hs
  cases hbm : bsMatch (s.data.map Char.toUpper) with
  | none =>
    unfold parseBSRule
    rw [hbm]
  | some bd =>
    exfalso
    obtain ⟨b, d⟩ := bd
    obtain ⟨hb, hd, heq⟩ := bsMatch_some_decomp hbm
    exact hs ⟨b, d, hb, hd, heq⟩
/-- Witness for C7 at the non-matching input `"X3/S23"`. -/
theorem parseBSRule_rejects_nonmatching_witness :
    parseBSRule "X3/S23" = Except.error bsFormatErr :=
  parseBSRule_rejects_nonmatching.1 "X3/S23" (by
    rintro ⟨b, d, hb, hd, heq⟩
    have hnone : bsMatch ("X3/S23".data.map Char.toUpper) = none := by decide
    rw [heq, bsMatch_of_decomp b d hb hd] at hnone
    exact Option.noConfusion hnone)
/-- C8: every error `parseBSRule` raises is the format error, so the
defensive digit-validation error is unreachable through the public parse
function (the two messages differ). -/
theorem parseBSRule_digit_branch_unreachable :
    (∀ (s : String) (e : String), parseBSRule s = Except.error e → e = bsFormatErr) ∧
    (bsDigitErr == bsFormatErr) = false := by
  refine ⟨?_, by decide⟩
  intro s e
  unfold parseBSRule
  cases hbm : bsMatch (s.data.map Char.toUpper) with
  | none =>
    intro he
    injection he with h
    exact h.symm
  | some bd =>
    obtain ⟨b, d⟩ := bd
    obtain ⟨hb, hd, _⟩ := bsMatch_some_decomp hbm
    have hbno : (b.map charToNum).any Option.isNone = false := by
      rw [List.any_eq_false]
      intro o ho
      obtain ⟨c, hc, rfl⟩ := List.mem_map.mp ho
      have hdig : ('0' ≤ c ∧ c ≤ '8') := by simpa [isDigit08] using hb c hc
      simp [charToNum, hdig.1, le_trans hdig.2 (by decide : ('8' : Char) ≤ '9')]
    have hdno : (d.map charToNum).any Option.isNone = false := by
      rw [List.any_eq_false]
      intro o ho
      obtain ⟨c, hc, rfl⟩ := List.mem_map.mp ho
      have hdig : ('0' ≤ c ∧ c ≤ '8') := by simpa [isDigit08] using hd c hc
      simp [charToNum, hdig.1, le_trans hdig.2 (by decide : ('8' : Char) ≤ '9')]
    simp [hbno, hdno]
/-- Witness for C8 at `"X3/S23"`, whose parse fails with the format error. -/
theorem parseBSRule_digit_unreachable_witness : bsFormatErr = bsFormatErr :=
  parseBSRule_digit_branch_unreachable.1 "X3/S23" bsFormatErr rfl

/-! ### Grid stepping theorems (C1, C9, C10) -/

/-- The loop-generated neighbor list coincides with the explicit 8-element
enumeration of the claim. -/
theorem moore_eq_spec (g : Grid) (rows cols i j : Nat) :
    mooreNeighbors g rows cols i j = specMooreList g rows cols i j := rfl

/-- Wrapped indices land inside the grid. -/
theorem wrapIdx_lt (i : Nat) (d : Int) (n : Nat) (hn : 0 < n) : wrapIdx i d n < n := by
  unfold wrapIdx
  have hn' : (0 : Int) < n := by exact_mod_cast hn
  have h1 : ((i : Int) + d + n) % n < n := Int.emod_lt_of_pos ((i : Int) + d + n) hn'
  have h2 : (0 : Int) ≤ ((i : Int) + d + n) % n := Int.emod_nonneg _ (by omega)
  omega

/-- Indexing a mapped range evaluates the function. -/
theorem getD_map_range {α : Type} (n i : Nat) (f : Nat → α) (d : α) (hi : i < n) :
    ((List.range n).map f).getD i d = f i := by
  rw [List.getD_eq_getElem _ _ (by simpa using hi), List.getElem_map, List.getElem_range]

/-- Cell `(i,j)` of the next generation is the rule applied to the Moore
neighbor list and the current cell. -/
theorem getCell_nextGeneration (g : Grid) (rule : RuleFunction) (rows cols i j : Nat)
    (hrect : Rectangular g rows cols) (hc : 0 < cols) (hi : i < rows) (hj : j < cols) :
    getCell (nextGeneration g rule) i j =
      rule (mooreNeighbors g rows cols i j) (getCell g i j) := by
  obtain ⟨hlen, hrow⟩ := hrect
  match g, hlen with
  | [], hlen => exact absurd (hlen ▸ hi) (by simp)
  | r0 :: t, hlen =>
    have hr0 : r0.length = cols := hrow r0 (List.mem_cons_self r0 t)
    subst hlen
    subst hr0
    rw [show nextGeneration (r0 :: t) rule =
        (if r0.length = 0 then ([] : Grid)
         else (List.range (r0 :: t).length).map fun a =>
           (List.range r0.length).map fun b =>
             rule (mooreNeighbors (r0 :: t) (r0 :: t).length r0.length a b)
               (getCell (r0 :: t) a b)) from rfl]
    rw [if_neg (by omega)]
    unfold getCell
    rw [getD_map_range _ _ _ _ hi]
    exact getD_map_range _ _ _ _ hj

/-- Stepping preserves the grid dimensions. -/
theorem nextGeneration_rect (g : Grid) (rule : RuleFunction) (rows cols : Nat)
    (hrect : Rectangular g rows cols) (hr : 0 < rows) (hc : 0 < cols) :
    Rectangular (nextGeneration g rule) rows cols := by
  obtain ⟨hlen, hrow⟩ := hrect
  match g, hlen with
  | [], hlen =>
    have h0 : rows = 0 := by simpa using hlen.symm
    exact absurd hr (by omega)
  | r0 :: t, hlen =>
    have hr0 : r0.length = cols := hrow r0 (List.mem_cons_self r0 t)
    rw [show nextGeneration (r0 :: t) rule =
        (if r0.length = 0 then ([] : Grid)
         else (List.range (r0 :: t).length).map fun a =>
           (List.range r0.length).map fun b =>
             rule (mooreNeighbors (r0 :: t) (r0 :: t).length r0.length a b)
               (getCell (r0 :: t) a b)) from rfl]
    rw [if_neg (by omega)]
    constructor
    · simpa using hlen
    · intro row hmem
      obtain ⟨a, ha, rfl⟩ := List.mem_map.mp hmem
      simpa using hr0

/-- C1: on a non-empty rectangular grid, `nextGeneration` computes each cell
`(i,j)` by applying the rule to the 8 Moore-neighborhood states read at
`((i+dx+rows)%rows, (j+dy+cols)%cols)`, enumerated row-major over `dx` then
`dy` skipping the center; on the 3x3 grid with a single live cell at `(0,0)`,
the neighbor list gathered for cell `(2,2)` contains exactly one live state. -/
theorem nextGeneration_moore (g : Grid) (rule : RuleFunction) (rows cols i j : Nat)
    (hrect : Rectangular g rows cols) (hr : 0 < rows) (hc : 0 < cols)
    (hi : i < rows) (hj : j < cols) :
    (getCell (nextGeneration g rule) i j =
      rule (specMooreList g rows cols i j) (getCell g i j)) ∧
    (mooreNeighbors [[1, 0, 0], [0, 0, 0], [0, 0, 0]] 3 3 2 2).count 1 = 1 := by
  refine ⟨?_, by decide⟩
  rw [← moore_eq_spec]
  exact getCell_nextGeneration g rule rows cols i j hrect hc hi hj

/-- Witness for C1 on the 3x3 single-live-cell grid at cell `(2,2)`. -/
theorem nextGeneration_moore_witness :
    (getCell (nextGeneration [[1, 0, 0], [0, 0, 0], [0, 0, 0]] conwayRule) 2 2 =
      conwayRule (specMooreList [[1, 0, 0], [0, 0, 0], [0, 0, 0]] 3 3 2 2)
        (getCell [[1, 0, 0], [0, 0, 0], [0, 0, 0]] 2 2)) ∧
    (mooreNeighbors [[1, 0, 0], [0, 0, 0], [0, 0, 0]] 3 3 2 2).count 1 = 1 :=
  nextGeneration_moore [[1, 0, 0], [0, 0, 0], [0, 0, 0]] conwayRule 3 3 2 2
    ⟨by decide, by decide⟩ (by decide) (by decide) (by decide) (by decide)

/-- C10: each output cell of `nextGeneration` is the rule applied to a
neighbor list of length exactly 8 whose entries are all states of the input
grid. -/
theorem nextGeneration_eight (g : Grid) (rule : RuleFunction) (rows cols i j : Nat)
    (hrect : Rectangular g rows cols) (hr : 0 < rows) (hc : 0 < cols)
    (hi : i < rows) (hj : j < cols) :
    getCell (nextGeneration g rule) i j =
      rule (mooreNeighbors g rows cols i j) (getCell g i j) ∧
    (mooreNeighbors g rows cols i j).length = 8 ∧
    ∀ s ∈ mooreNeighbors g rows cols i j,
      ∃ a b, a < rows ∧ b < cols ∧ s = getCell g a b := by
  refine ⟨getCell_nextGeneration g rule rows cols i j hrect hc hi hj, rfl, ?_⟩
  intro s hs
  rw [moore_eq_spec] at hs
  simp only [specMooreList, List.mem_cons, List.not_mem_nil, or_false] at hs
  rcases hs with h | h | h | h | h | h | h | h
  · exact ⟨wrapIdx i (-1) rows, wrapIdx j (-1) cols,
      wrapIdx_lt i (-1) rows hr, wrapIdx_lt j (-1) cols hc, h⟩
  · exact ⟨wrapIdx i (-1) rows, wrapIdx j 0 cols,
      wrapIdx_lt i (-1) rows hr, wrapIdx_lt j 0 cols hc, h⟩
  · exact ⟨wrapIdx i (-1) rows, wrapIdx j 1 cols,
      wrapIdx_lt i (-1) rows hr, wrapIdx_lt j 1 cols hc, h⟩
  · exact ⟨wrapIdx i 0 rows, wrapIdx j (-1) cols,
      wrapIdx_lt i 0 rows hr, wrapIdx_lt j (-1) cols hc, h⟩
  · exact ⟨wrapIdx i 0 rows, wrapIdx j 1 cols,
      wrapIdx_lt i 0 rows hr, wrapIdx_lt j 1 cols hc, h⟩
  · exact ⟨wrapIdx i 1 rows, wrapIdx j (-1) cols,
      wrapIdx_lt i 1 rows hr, wrapIdx_lt j (-1) cols hc, h⟩
  · exact ⟨wrapIdx i 1 rows, wrapIdx j 0 cols,
      wrapIdx_lt i 1 rows hr, wrapIdx_lt j 0 cols hc, h⟩
  · exact ⟨wrapIdx i 1 rows, wrapIdx j 1 cols,
      wrapIdx_lt i 1 rows hr, wrapIdx_lt j 1 cols hc, h⟩

/-- Witness for C10 on a 2x2 grid at cell `(0,0)`. -/
theorem nextGeneration_eight_witness :
    getCell (nextGeneration [[1, 0], [0, 0]] conwayRule) 0 0 =
      conwayRule (mooreNeighbors [[1, 0], [0, 0]] 2 2 0 0)
        (getCell [[1, 0], [0, 0]] 0 0) ∧
    (mooreNeighbors [[1, 0], [0, 0]] 2 2 0 0).length = 8 ∧
    ∀ s ∈ mooreNeighbors [[1, 0], [0, 0]] 2 2 0 0,
      ∃ a b, a < 2 ∧ b < 2 ∧ s = getCell [[1, 0], [0, 0]] a b :=
  nextGeneration_eight [[1, 0], [0, 0]] conwayRule 2 2 0 0
    ⟨by decide, by decide⟩ (by decide) (by decide) (by decide) (by decide)

/-- C9: on a non-empty rectangular grid, a cell that is CRYSTAL (state 1)
stays CRYSTAL after any number of `nextGeneration` steps with
`simpleCrystalRule`. -/
theorem crystal_monotone (g : Grid) (rows cols i j : Nat)
    (hrect : Rectangular g rows cols) (hr : 0 < rows) (hc : 0 < cols)
    (hi : i < rows) (hj : j < cols) (hcry : getCell g i j = 1) (n : Nat) :
    getCell (crystalStep^[n] g) i j = 1 := by
  induction n generalizing g with
  | zero => simpa using hcry
  | succ m ih =>
    rw [Function.iterate_succ_apply]
    refine ih (crystalStep g) (nextGeneration_rect g _ rows cols hrect hr hc) ?_
    show getCell (nextGeneration g _) i j = 1
    rw [getCell_nextGeneration g _ rows cols i j hrect hc hi hj, hcry]
    rfl

/-- Witness for C9: the center of a 3x3 seed grid after 2 steps. -/
theorem crystal_monotone_witness :
    getCell (crystalStep^[2] [[0, 0, 0], [0, 1, 0], [0, 0, 0]]) 1 1 = 1 :=
  crystal_monotone [[0, 0, 0], [0, 1, 0], [0, 0, 0]] 3 3 1 1
    ⟨by decide, by decide⟩ (by decide) (by decide) (by decide) (by decide) (by decide) 2

end Automata
